import Mathlib

/-!
# Verification of the hbone stream-transport core

Shallow embedding of `crates/hbone/src/lib.rs`: the H2 stream duplex
adapter (`H2StreamReadHalf`, `H2StreamWriteHalf`, `TokioH2Stream`), the
half-close drop counter (`DropCounter`), the ping/pong liveness watchdog
(`do_ping_pong`), the error classifier (`h2_to_io_error`), and the
serialized `Config` surface.

The h2 library primitives (`RecvStream`, `SendStream`, `PingPong`) are
modelled as scripted oracles: each poll consumes the next event from a
list, which lets the poll-based state machines of the source be expressed
as structural recursion.
-/

namespace Hbone

/-- Byte buffers (`bytes::Bytes`) are modelled as lists of byte values. -/
abbrev Bytes : Type := List Nat

/-- `std::task::Poll`. -/
inductive Poll (α : Type) where
  | ready (a : α)
  | pending
deriving DecidableEq

/-- `h2::Reason` reset codes that the source inspects, plus a catch-all
for every other HTTP/2 reset code. -/
inductive Reason where
  | NO_ERROR
  | CANCEL
  | STREAM_CLOSED
  | otherCode (code : Nat)
deriving DecidableEq

/-- Identity of an underlying `std::io::Error` carried inside an
`h2::Error` whose `is_io()` is true: its kind together with a tag so that
"returned unchanged" is expressible. Kinds are represented by name tags;
`0` stands for `BrokenPipe` (unused here, the tag is opaque). -/
structure IoPayload where
  kind : Nat
  tag : Nat
deriving DecidableEq

/-- `h2::Error`, as far as the source observes it: `reason()` yields the
reset reason of a RST_STREAM error, `is_io()` selects the wrapped-io case,
and `other` stands for any remaining protocol error (no reason, not io). -/
inductive H2Error where
  | reset (r : Reason)
  | io (p : IoPayload)
  | other (tag : Nat)
deriving DecidableEq

/-- `h2::Error::reason()`. -/
def H2Error.reason : H2Error → Option Reason
  | .reset r => some r
  | .io _ => none
  | .other _ => none

/-- `h2::Error::is_io()`. -/
def H2Error.is_io : H2Error → Bool
  | .io _ => true
  | _ => false

/-- `std::io::Error` values the source constructs:
`raw` is an io error unwrapped out of an `h2::Error` (`into_io`),
`kindOnly` is `ErrorKind::BrokenPipe.into()` style (kind, no cause),
`newWith` is `Error::new(kind, cause)`,
`otherWrap` is `Error::other(cause)` wrapping an h2 error,
`overflow` is the `Error::other(format!(...))` overflow message of
`TokioH2Stream::poll_read`, carrying the remaining capacity it reports. -/
inductive IoError where
  | raw (p : IoPayload)
  | kindBrokenPipe
  | newBrokenPipeWith (cause : H2Error)
  | otherWrap (cause : H2Error)
  | overflow (remaining : Nat)
deriving DecidableEq

/-- Result of a fallible io operation (`std::io::Result`). -/
inductive IoOut (α : Type) where
  | ok (a : α)
  | fail (e : IoError)
deriving DecidableEq

/-- `h2_to_io_error` (lib.rs 347-353): an error that already is an io
error is unwrapped and returned unchanged; anything else is wrapped as an
opaque io error preserving the cause. -/
def h2_to_io_error : H2Error → IoError
  | .io p => .raw p
  | e => .otherWrap e

/-- One outcome of `RecvStream::poll_data`: pending, a data frame
(together with the value `is_end_stream()` reports right after it), end
of stream (`None`), or a stream error. -/
inductive RecvEvent where
  | pending
  | data (buf : Bytes) (endStream : Bool)
  | eos
  | err (e : H2Error)
deriving DecidableEq

/-- The scripted `h2::RecvStream`: the events its polls will yield, and
the log of `flow_control().release_capacity(n)` calls issued so far. -/
structure RecvStream where
  events : List RecvEvent
  released : List Nat
deriving DecidableEq

/-- Loop body of `H2StreamReadHalf::poll_bytes` (lib.rs 254-280), as
structural recursion over the event script. Returns the poll result, the
unconsumed events, and the updated release-capacity log. An empty
non-final data frame is skipped and the pull retried; a non-skipped data
frame first issues `release_capacity(buf.len())` and is then returned;
stream end and NO_ERROR/CANCEL resets yield an empty terminal chunk;
STREAM_CLOSED yields a broken-pipe error; other errors go through
`h2_to_io_error`. An exhausted script behaves as pending. -/
def poll_bytes_go : List RecvEvent → List Nat →
    Poll (IoOut Bytes) × List RecvEvent × List Nat
  | [], log => (.pending, [], log)
  | .pending :: rest, log => (.pending, rest, log)
  | .eos :: rest, log => (.ready (.ok []), rest, log)
  | .data buf endStream :: rest, log =>
    if buf = [] ∧ endStream = false then
      poll_bytes_go rest log
    else
      (.ready (.ok buf), rest, log ++ [buf.length])
  | .err e :: rest, log =>
    match e.reason with
    | some .NO_ERROR => (.ready (.ok []), rest, log)
    | some .CANCEL => (.ready (.ok []), rest, log)
    | some .STREAM_CLOSED => (.ready (.fail (.newBrokenPipeWith e)), rest, log)
    | _ => (.ready (.fail (h2_to_io_error e)), rest, log)

/-- `H2StreamReadHalf::poll_bytes` over the scripted receive stream. -/
def poll_bytes (s : RecvStream) : Poll (IoOut Bytes) × RecvStream :=
  let r := poll_bytes_go s.events s.released
  (r.1, ⟨r.2.1, r.2.2⟩)

/-- The caller-owned destination buffer of `tokio::io::ReadBuf`: the
bytes filled so far and the remaining capacity. -/
structure ReadBuf where
  filled : Bytes
  remaining : Nat
deriving DecidableEq

/-- `TokioH2Stream::poll_read` (lib.rs 202-224): pulls a chunk via
`poll_bytes`; a chunk larger than the remaining buffer capacity yields an
explicit overflow error and fills nothing; otherwise the whole chunk is
copied into the buffer. -/
def tokio_poll_read (s : RecvStream) (buf : ReadBuf) :
    Poll (IoOut Unit) × RecvStream × ReadBuf :=
  match poll_bytes s with
  | (.pending, s1) => (.pending, s1, buf)
  | (.ready (.fail e), s1) => (.ready (.fail e), s1, buf)
  | (.ready (.ok bytes), s1) =>
    if buf.remaining < bytes.length then
      (.ready (.fail (.overflow buf.remaining)), s1, buf)
    else
      (.ready (.ok ()), s1,
        ⟨buf.filled ++ bytes, buf.remaining - bytes.length⟩)

/-- One outcome of `SendStream::poll_capacity`: pending, `None` (stream
released, no further grants), a capacity grant `Some(Ok(cnt))`, or an
error `Some(Err(e))`. -/
inductive CapacityEvent where
  | pending
  | closed
  | grant (cnt : Nat)
  | err (e : H2Error)
deriving DecidableEq

/-- One outcome of `SendStream::poll_reset`. -/
inductive ResetEvent where
  | pending
  | ok (r : Reason)
  | err (e : H2Error)
deriving DecidableEq

/-- The scripted `h2::SendStream<Bytes>`: outcomes its capacity and reset
polls will yield, outcomes of its `send_data` calls (an empty script
means every send succeeds), plus logs of `reserve_capacity` calls made
and of the data frames actually handed to `send_data`, each with its
end-of-stream flag. -/
structure SendStream where
  capacity : List CapacityEvent
  resets : List ResetEvent
  sendResults : List (Option H2Error)
  reserved : List Nat
  sent : List (Bytes × Bool)
deriving DecidableEq

/-- `SendStream::reserve_capacity(n)`: recorded in the log. -/
def reserve_capacity (s : SendStream) (n : Nat) : SendStream :=
  { s with reserved := s.reserved ++ [n] }

/-- `SendStream::send_data(buf, end_of_stream)`: on success the frame is
enqueued (recorded in `sent`); on a scripted failure nothing is sent. -/
def send_data (s : SendStream) (buf : Bytes) (end_of_stream : Bool) :
    Option H2Error × SendStream :=
  match s.sendResults with
  | [] => (none, { s with sent := s.sent ++ [(buf, end_of_stream)] })
  | none :: rest =>
    (none, { s with sent := s.sent ++ [(buf, end_of_stream)], sendResults := rest })
  | some e :: rest => (some e, { s with sendResults := rest })

/-- `H2StreamWriteHalf::write_slice` (lib.rs 171-178): `send_data` with
the error mapped through `h2_to_io_error`. -/
def write_slice (s : SendStream) (buf : Bytes) (end_of_stream : Bool) :
    IoOut Unit × SendStream :=
  match send_data s buf end_of_stream with
  | (none, s1) => (.ok (), s1)
  | (some e, s1) => (.fail (h2_to_io_error e), s1)

/-- The reset-reason fallback of `poll_write_buf` (lib.rs 310-318): polls
`poll_reset`; reasons NO_ERROR, CANCEL and STREAM_CLOSED become a
broken-pipe error, any other reason is converted to an h2 error and
wrapped by `h2_to_io_error`, and a reset-poll error goes through
`h2_to_io_error` directly. -/
def write_reset_fallback (s : SendStream) : Poll (IoOut Nat) × SendStream :=
  match s.resets with
  | [] => (.pending, s)
  | .pending :: rest => (.pending, { s with resets := rest })
  | .ok .NO_ERROR :: rest =>
    (.ready (.fail .kindBrokenPipe), { s with resets := rest })
  | .ok .CANCEL :: rest =>
    (.ready (.fail .kindBrokenPipe), { s with resets := rest })
  | .ok .STREAM_CLOSED :: rest =>
    (.ready (.fail .kindBrokenPipe), { s with resets := rest })
  | .ok (.otherCode c) :: rest =>
    (.ready (.fail (h2_to_io_error (.reset (.otherCode c)))), { s with resets := rest })
  | .err e :: rest =>
    (.ready (.fail (h2_to_io_error e)), { s with resets := rest })

/-- `H2StreamWriteHalf::poll_write_buf` (lib.rs 288-319): an empty chunk
succeeds immediately with 0; otherwise capacity for the whole chunk is
reserved and `poll_capacity` consulted: `None` yields `Ok(0)`, a grant of
`cnt` sends the first `cnt` bytes without end-of-stream and returns
`Ok(cnt)`, and a capacity error or send failure falls back to the reset
reason. An exhausted capacity script behaves as pending. -/
def poll_write_buf (s : SendStream) (buf : Bytes) : Poll (IoOut Nat) × SendStream :=
  if buf = [] then (.ready (.ok 0), s)
  else
    let s1 := reserve_capacity s buf.length
    match s1.capacity with
    | [] => (.pending, s1)
    | .pending :: rest => (.pending, { s1 with capacity := rest })
    | .closed :: rest => (.ready (.ok 0), { s1 with capacity := rest })
    | .grant cnt :: rest =>
      match write_slice { s1 with capacity := rest } (buf.take cnt) false with
      | (.ok _, s2) => (.ready (.ok cnt), s2)
      | (.fail _, s2) => write_reset_fallback s2
    | .err _ :: rest => write_reset_fallback { s1 with capacity := rest }

/-- `H2StreamWriteHalf::poll_shutdown` (lib.rs 325-344): sends an empty
end-of-stream frame; on failure polls the reset reason, where NO_ERROR is
success, CANCEL and STREAM_CLOSED are a broken-pipe error, any other
reason is wrapped, and a reset-poll error goes through `h2_to_io_error`. -/
def poll_shutdown (s : SendStream) : Poll (IoOut Unit) × SendStream :=
  match write_slice s [] true with
  | (.ok _, s1) => (.ready (.ok ()), s1)
  | (.fail _, s1) =>
    match s1.resets with
    | [] => (.pending, s1)
    | .pending :: rest => (.pending, { s1 with resets := rest })
    | .ok .NO_ERROR :: rest => (.ready (.ok ()), { s1 with resets := rest })
    | .ok .CANCEL :: rest =>
      (.ready (.fail .kindBrokenPipe), { s1 with resets := rest })
    | .ok .STREAM_CLOSED :: rest =>
      (.ready (.fail .kindBrokenPipe), { s1 with resets := rest })
    | .ok (.otherCode c) :: rest =>
      (.ready (.fail (h2_to_io_error (.reset (.otherCode c)))), { s1 with resets := rest })
    | .err e :: rest =>
      (.ready (.fail (h2_to_io_error e)), { s1 with resets := rest })

/-- Wrapping decrement of the `AtomicU16` active-stream counter
(`fetch_sub(1)` wraps modulo 2^16). -/
def u16_wrap_dec (c : Nat) : Nat := (c + 65535) % 65536

/-- Joint state of one half-close token pair minted by `DropCounter::new`
(lib.rs 147-159) over a shared counter: which token has already run its
drop handler, and the counter value. The shared `Arc<()>` marker's strong
count is determined by these flags (2 minus the number of drops run), so
it is not stored separately. -/
structure DropPair where
  aDropped : Bool
  bDropped : Bool
  active_count : Nat
deriving DecidableEq

/-- `DropCounter::new`: both tokens live, counter untouched. -/
def DropCounter.new (c : Nat) : DropPair := ⟨false, false, c⟩

/-- `impl Drop for DropCounter` (lib.rs 180-192) for one token of the
pair: the token swaps out its marker reference and feeds it to
`Arc::into_inner`, which yields `none` exactly when the sibling token
still holds its reference; in that case (`is_none`) the shared counter is
decremented with `fetch_sub(1)`. Concurrent release of both halves from
two tasks linearizes at the marker's atomic reference count, so every
interleaving behaves as one of the two sequential orders. -/
def DropPair.drop (aSide : Bool) (s : DropPair) : DropPair :=
  if aSide then
    if s.bDropped then { s with aDropped := true }
    else { s with aDropped := true, active_count := u16_wrap_dec s.active_count }
  else
    if s.aDropped then { s with bDropped := true }
    else { s with bDropped := true, active_count := u16_wrap_dec s.active_count }

/-- Resolution of one ping round in `do_ping_pong`: the 20 second timeout
elapsed, a pong arrived, or the ping future itself returned an error. -/
inductive PingOutcome where
  | timeout
  | pong
  | err
deriving DecidableEq

/-- Environment of one iteration of the `do_ping_pong` loop: the value
the shared `dropped` flag shows at the loop head, how the ping resolves,
and the value the flag shows when re-read in the error branch. -/
structure PingRound where
  droppedAtStart : Bool
  outcome : PingOutcome
  droppedAtErr : Bool
deriving DecidableEq

/-- How a `do_ping_pong` run ended: returned without sending on `tx`,
returned after sending, or the scripted environment ran out while the
loop was still going. -/
inductive WatchdogExit where
  | silent
  | signaled
  | scriptOver
deriving DecidableEq

/-- Observable outcome of a `do_ping_pong` run: how many times
`tx.send(())` was called, how many pings were issued, and how it ended. -/
structure WatchdogRun where
  signals : Nat
  pings : Nat
  exit : WatchdogExit
deriving DecidableEq

/-- The watchdog loop of `do_ping_pong` (lib.rs 36-75) over a scripted
environment: at each iteration the `dropped` flag is checked first (set
means return silently); otherwise a ping is issued, and a timeout sends
the one-shot signal and returns, a pong continues the loop, and a ping
error re-checks the flag (set means return silently, clear means send the
signal and return). -/
def do_ping_pong : List PingRound → WatchdogRun
  | [] => ⟨0, 0, .scriptOver⟩
  | r :: rest =>
    if r.droppedAtStart then ⟨0, 0, .silent⟩
    else
      match r.outcome with
      | .timeout => ⟨1, 1, .signaled⟩
      | .pong =>
        let w := do_ping_pong rest
        ⟨w.signals, w.pings + 1, w.exit⟩
      | .err => if r.droppedAtErr then ⟨0, 1, .silent⟩ else ⟨1, 1, .signaled⟩

/-- The `Config` record (lib.rs 26-34); `Duration` is modelled as
nanoseconds. -/
structure Config where
  window_size : Nat
  connection_window_size : Nat
  frame_size : Nat
  pool_max_streams_per_conn : Nat
  pool_unused_release_timeout : Nat
deriving DecidableEq

/-- serde's PascalCase rename rule on a snake_case identifier: drop each
underscore and capitalize the letter that follows it (and the first
letter). -/
def pascalChars : Bool → List Char → List Char
  | _, [] => []
  | cap, c :: cs =>
    if c = '_' then pascalChars true cs
    else (if cap then c.toUpper else c) :: pascalChars false cs

/-- serde's camelCase rename rule (`#[serde(rename_all = "camelCase")]`,
lib.rs 27): PascalCase with the first character lowercased. -/
def serde_camel_case (s : String) : String :=
  match pascalChars true s.data with
  | [] => ⟨[]⟩
  | c :: cs => ⟨c.toLower :: cs⟩

/-- The Rust field identifiers of `Config`, in declaration order. -/
def configRustFieldNames : List String :=
  ["window_size", "connection_window_size", "frame_size",
   "pool_max_streams_per_conn", "pool_unused_release_timeout"]

/-- The field names `serde::Serialize` exposes for `Config`: the declared
identifiers under the struct's `rename_all = "camelCase"` attribute. -/
def configSerializedFieldNames : List String :=
  configRustFieldNames.map serde_camel_case

end Hbone


namespace Hbone

/-- The receive script truly ends the stream at its first resolving
event: `poll_data` yields `None`, or an empty frame with the end-of-stream
flag set, or a reset with a clean NO_ERROR/CANCEL reason. Empty non-final
frames are skipped, as `poll_bytes` does. -/
def streamTrulyEnded : List RecvEvent → Bool
  | [] => false
  | .pending :: _ => false
  | .eos :: _ => true
  | .data [] true :: _ => true
  | .data [] false :: rest => streamTrulyEnded rest
  | .data (_ :: _) _ :: _ => false
  | .err e :: _ =>
    match e.reason with
    | some .NO_ERROR => true
    | some .CANCEL => true
    | _ => false

end Hbone

namespace Hbone

/-- C1: for every half-close token pair minted by `DropCounter::new` over
a shared active-stream counter and for either release order of the two
tokens (concurrent release linearizes at the marker's atomic reference
count, so it behaves as one of these two orders), the first release
decrements the counter by exactly one and the second leaves it unchanged:
exactly one decrement per pair, never zero, never two. -/
theorem drop_counter_exactly_once (c : Nat) (h0 : 0 < c) (h1 : c < 65536)
    (firstA : Bool) :
    (DropPair.drop firstA (DropCounter.new c)).active_count = c - 1 ∧
    (DropPair.drop (!firstA) (DropPair.drop firstA (DropCounter.new c))).active_count
      = c - 1 := by
  cases firstA <;>
    simp [DropCounter.new, DropPair.drop, u16_wrap_dec] <;> omega

/-- Witness for C1 at a counter value of 5, read half released first. -/
theorem drop_counter_exactly_once_witness :
    (DropPair.drop true (DropCounter.new 5)).active_count = 4 ∧
    (DropPair.drop (!true) (DropPair.drop true (DropCounter.new 5))).active_count
      = 4 :=
  drop_counter_exactly_once 5 (by decide) (by decide) true

end Hbone

namespace Hbone

/-- C3 counterexample: because of the struct's camelCase rename
attribute, serializing `Config` does not expose the snake_case field
names the claim lists. -/
theorem config_field_names_not_snake_case :
    configSerializedFieldNames ≠
      ["window_size", "connection_window_size", "frame_size",
       "pool_max_streams_per_conn", "pool_unused_release_timeout"] := by
  decide

/-- C3 (amended): serializing a `Config` value exposes exactly the
camelCase field names `windowSize`, `connectionWindowSize`, `frameSize`,
`poolMaxStreamsPerConn` and `poolUnusedReleaseTimeout`, the declared
identifiers renamed by the struct's camelCase serialization attribute. -/
theorem config_field_names_camel_case :
    configSerializedFieldNames =
      ["windowSize", "connectionWindowSize", "frameSize",
       "poolMaxStreamsPerConn", "poolUnusedReleaseTimeout"] := by
  decide

/-- C10: when the capacity poll yields no further grants (`poll_capacity`
returns `None`), `poll_write_buf` on a non-empty chunk returns success
with zero bytes written, sending nothing and never touching the
reset-reason fallback. -/
theorem poll_capacity_none_ok_zero (s : SendStream) (buf : Bytes)
    (rest : List CapacityEvent) (hbuf : buf ≠ [])
    (hcap : s.capacity = CapacityEvent.closed :: rest) :
    poll_write_buf s buf =
      (.ready (.ok 0),
        { s with capacity := rest, reserved := s.reserved ++ [buf.length] }) := by
  simp [poll_write_buf, reserve_capacity, hbuf, hcap]

/-- Witness for C10: a two-byte chunk against a released send stream. -/
theorem poll_capacity_none_ok_zero_witness :
    poll_write_buf ⟨[.closed], [], [], [], []⟩ [9, 9] =
      (.ready (.ok 0), ⟨[], [], [], [2], []⟩) :=
  poll_capacity_none_ok_zero ⟨[.closed], [], [], [], []⟩ [9, 9] []
    (by decide) rfl

end Hbone

namespace Hbone

/-- C4: on a non-empty chunk, when the flow-control layer grants `cnt`
bytes (possibly fewer than requested) and the send succeeds, the adapter
sends exactly the first `cnt` bytes of the chunk without the
end-of-stream flag and returns `Ok(cnt)`; the remaining bytes of the
chunk are not sent (the one frame handed to the send stream has length
`cnt`, and the chunk splits into that prefix plus the untouched
remainder). -/
theorem partial_write_sends_granted_prefix (s : SendStream) (buf : Bytes)
    (cnt : Nat) (rest : List CapacityEvent) (hbuf : buf ≠ [])
    (hcnt : cnt ≤ buf.length)
    (hcap : s.capacity = CapacityEvent.grant cnt :: rest)
    (hsend : s.sendResults = []) :
    poll_write_buf s buf =
      (.ready (.ok cnt),
        { s with capacity := rest,
                 reserved := s.reserved ++ [buf.length],
                 sent := s.sent ++ [(buf.take cnt, false)] }) ∧
    (buf.take cnt).length = cnt ∧
    buf.take cnt ++ buf.drop cnt = buf := by
  refine ⟨?_, ?_, ?_⟩
  · simp [poll_write_buf, reserve_capacity, write_slice, send_data, hbuf, hcap,
      hsend]
  · simpa using hcnt
  · exact List.take_append_drop cnt buf

/-- Witness for C4: a 5-byte chunk, 3 bytes granted. -/
theorem partial_write_sends_granted_prefix_witness :
    poll_write_buf ⟨[.grant 3], [], [], [], []⟩ [1, 2, 3, 4, 5] =
      (.ready (.ok 3), ⟨[], [], [], [5], [([1, 2, 3], false)]⟩) ∧
    (([1, 2, 3, 4, 5] : Bytes).take 3).length = 3 ∧
    ([1, 2, 3, 4, 5] : Bytes).take 3 ++ ([1, 2, 3, 4, 5] : Bytes).drop 3 =
      [1, 2, 3, 4, 5] :=
  partial_write_sends_granted_prefix ⟨[.grant 3], [], [], [], []⟩
    [1, 2, 3, 4, 5] 3 [] (by decide) (by decide) rfl rfl

/-- C7: when `TokioH2Stream::poll_read` receives a chunk larger than the
remaining space of the caller's destination buffer, it returns an
explicit overflow error and writes nothing into the buffer. -/
theorem tokio_poll_read_overflow (s : RecvStream) (buf : ReadBuf)
    (bytes : Bytes) (s1 : RecvStream)
    (hread : poll_bytes s = (.ready (.ok bytes), s1))
    (hover : buf.remaining < bytes.length) :
    tokio_poll_read s buf = (.ready (.fail (.overflow buf.remaining)), s1, buf) := by
  simp [tokio_poll_read, hread, hover]

/-- Witness for C7: a 3-byte chunk against a buffer with 2 bytes left. -/
theorem tokio_poll_read_overflow_witness :
    tokio_poll_read ⟨[.data [1, 2, 3] false], []⟩ ⟨[], 2⟩ =
      (.ready (.fail (.overflow 2)), ⟨[], [3]⟩, ⟨[], 2⟩) :=
  tokio_poll_read_overflow ⟨[.data [1, 2, 3] false], []⟩ ⟨[], 2⟩ [1, 2, 3]
    ⟨[], [3]⟩ (by decide) (by decide)

end Hbone

namespace Hbone

/-- C2 counterexample: a write through `poll_write_buf` whose capacity
poll fails and whose reset-reason fallback observes NO_ERROR completes
with a broken-pipe error, not with success as the claim states. -/
theorem clean_reset_write_fallback_not_success :
    poll_write_buf ⟨[.err (.other 0)], [.ok .NO_ERROR], [], [], []⟩ [7] =
      (.ready (.fail .kindBrokenPipe), ⟨[], [], [], [1], []⟩) := by
  decide

/-- C2 (amended): a read via `poll_bytes` that encounters a stream error
whose reset reason is NO_ERROR or CANCEL returns a ready, empty terminal
chunk and not an error; a write via `poll_write_buf` whose reset-reason
fallback observes NO_ERROR or CANCEL completes with a broken-pipe error;
and a shutdown via `poll_shutdown` whose fallback observes NO_ERROR
completes with success while CANCEL yields a broken-pipe error. -/
theorem clean_reset_classification :
    (∀ (e : H2Error) (rest : List RecvEvent) (log : List Nat),
        e.reason = some Reason.NO_ERROR ∨ e.reason = some Reason.CANCEL →
        poll_bytes_go (.err e :: rest) log = (.ready (.ok []), rest, log)) ∧
    (∀ (s : SendStream) (r : Reason) (rrest : List ResetEvent),
        r = Reason.NO_ERROR ∨ r = Reason.CANCEL →
        s.resets = ResetEvent.ok r :: rrest →
        write_reset_fallback s =
          (.ready (.fail .kindBrokenPipe), { s with resets := rrest })) ∧
    (∀ (s : SendStream) (e : H2Error) (srest : List (Option H2Error))
        (rrest : List ResetEvent),
        s.sendResults = some e :: srest →
        s.resets = ResetEvent.ok Reason.NO_ERROR :: rrest →
        poll_shutdown s =
          (.ready (.ok ()), { s with sendResults := srest, resets := rrest })) ∧
    (∀ (s : SendStream) (e : H2Error) (srest : List (Option H2Error))
        (rrest : List ResetEvent),
        s.sendResults = some e :: srest →
        s.resets = ResetEvent.ok Reason.CANCEL :: rrest →
        poll_shutdown s =
          (.ready (.fail .kindBrokenPipe),
            { s with sendResults := srest, resets := rrest })) := by
  refine ⟨?_, ?_, ?_, ?_⟩
  · rintro e rest log (hre | hre) <;> simp [poll_bytes_go, hre]
  · rintro s r rrest (rfl | rfl) hres <;> simp [write_reset_fallback, hres]
  · intro s e srest rrest hsend hres
    simp [poll_shutdown, write_slice, send_data, hsend, hres]
  · intro s e srest rrest hsend hres
    simp [poll_shutdown, write_slice, send_data, hsend, hres]

/-- Witness for C2: the write-fallback conjunct at a concrete stream
whose reset poll reports NO_ERROR. -/
theorem clean_reset_classification_witness :
    write_reset_fallback ⟨[], [.ok .NO_ERROR], [], [], []⟩ =
      (.ready (.fail .kindBrokenPipe), ⟨[], [], [], [], []⟩) :=
  clean_reset_classification.2.1 ⟨[], [.ok .NO_ERROR], [], [], []⟩
    Reason.NO_ERROR [] (Or.inl rfl) rfl

end Hbone

namespace Hbone

/-- C5: a STREAM_CLOSED reset yields a broken-pipe error from the direct
read-path classifier and from the reset-reason fallback of both
`poll_write_buf` and `poll_shutdown`; any other non-clean reset reason is
wrapped as an opaque error preserving the cause, on the read path and in
the fallback alike; a lower-layer error with no reason is wrapped
preserving the cause; and an error that already is an io error is
unwrapped by `h2_to_io_error` and returned unchanged, also on the read
path. -/
theorem reset_reason_classification :
    (∀ (rest : List RecvEvent) (log : List Nat),
        poll_bytes_go (.err (.reset .STREAM_CLOSED) :: rest) log =
          (.ready (.fail (.newBrokenPipeWith (.reset .STREAM_CLOSED))), rest, log)) ∧
    (∀ (s : SendStream) (rrest : List ResetEvent),
        s.resets = ResetEvent.ok Reason.STREAM_CLOSED :: rrest →
        write_reset_fallback s =
          (.ready (.fail .kindBrokenPipe), { s with resets := rrest })) ∧
    (∀ (s : SendStream) (e : H2Error) (srest : List (Option H2Error))
        (rrest : List ResetEvent),
        s.sendResults = some e :: srest →
        s.resets = ResetEvent.ok Reason.STREAM_CLOSED :: rrest →
        poll_shutdown s =
          (.ready (.fail .kindBrokenPipe),
            { s with sendResults := srest, resets := rrest })) ∧
    (∀ (c : Nat) (rest : List RecvEvent) (log : List Nat),
        poll_bytes_go (.err (.reset (.otherCode c)) :: rest) log =
          (.ready (.fail (.otherWrap (.reset (.otherCode c)))), rest, log)) ∧
    (∀ (s : SendStream) (c : Nat) (rrest : List ResetEvent),
        s.resets = ResetEvent.ok (Reason.otherCode c) :: rrest →
        write_reset_fallback s =
          (.ready (.fail (.otherWrap (.reset (.otherCode c)))),
            { s with resets := rrest })) ∧
    (∀ (t : Nat) (rest : List RecvEvent) (log : List Nat),
        poll_bytes_go (.err (.other t) :: rest) log =
          (.ready (.fail (.otherWrap (.other t))), rest, log)) ∧
    (∀ p : IoPayload, h2_to_io_error (.io p) = .raw p) ∧
    (∀ (p : IoPayload) (rest : List RecvEvent) (log : List Nat),
        poll_bytes_go (.err (.io p) :: rest) log =
          (.ready (.fail (.raw p)), rest, log)) := by
  refine ⟨?_, ?_, ?_, ?_, ?_, ?_, ?_, ?_⟩
  · intro rest log; simp [poll_bytes_go, H2Error.reason]
  · intro s rrest hres; simp [write_reset_fallback, hres]
  · intro s e srest rrest hsend hres
    simp [poll_shutdown, write_slice, send_data, hsend, hres]
  · intro c rest log; simp [poll_bytes_go, H2Error.reason, h2_to_io_error]
  · intro s c rrest hres; simp [write_reset_fallback, hres, h2_to_io_error]
  · intro t rest log; simp [poll_bytes_go, H2Error.reason, h2_to_io_error]
  · intro p; simp [h2_to_io_error]
  · intro p rest log; simp [poll_bytes_go, H2Error.reason, h2_to_io_error]

/-- Witness for C5: the write-fallback conjunct at a concrete stream
whose reset poll reports STREAM_CLOSED. -/
theorem reset_reason_classification_witness :
    write_reset_fallback ⟨[], [.ok .STREAM_CLOSED], [], [], []⟩ =
      (.ready (.fail .kindBrokenPipe), ⟨[], [], [], [], []⟩) :=
  reset_reason_classification.2.1 ⟨[], [.ok .STREAM_CLOSED], [], [], []⟩ [] rfl

end Hbone

namespace Hbone

/-- C6: whenever `poll_bytes` returns a ready, non-empty chunk of N
bytes, a flow-control credit release of N bytes has been issued on the
receive stream in the same step, before the chunk reaches the caller: the
release log grows by exactly the entry N. -/
theorem read_release_capacity_before_return (events : List RecvEvent)
    (log log1 : List Nat) (buf : Bytes) (rest : List RecvEvent)
    (hres : poll_bytes_go events log = (.ready (.ok buf), rest, log1))
    (hne : buf ≠ []) :
    log1 = log ++ [buf.length] := by
  induction events generalizing log with
  | nil => simp [poll_bytes_go] at hres
  | cons ev evs ih =>
    cases ev with
    | pending => simp [poll_bytes_go] at hres
    | eos =>
      simp [poll_bytes_go] at hres
      exact absurd hres.1 hne
    | data b es =>
      simp only [poll_bytes_go] at hres
      split at hres
      · exact ih log hres
      · simp at hres
        obtain ⟨h1, _, h3⟩ := hres
        subst h1
        exact h3.symm
    | err e =>
      cases e with
      | reset r =>
        cases r with
        | NO_ERROR =>
          simp [poll_bytes_go, H2Error.reason] at hres
          exact absurd hres.1 hne
        | CANCEL =>
          simp [poll_bytes_go, H2Error.reason] at hres
          exact absurd hres.1 hne
        | STREAM_CLOSED => simp [poll_bytes_go, H2Error.reason] at hres
        | otherCode c =>
          simp [poll_bytes_go, H2Error.reason, h2_to_io_error] at hres
      | io p => simp [poll_bytes_go, H2Error.reason, h2_to_io_error] at hres
      | other t => simp [poll_bytes_go, H2Error.reason, h2_to_io_error] at hres

/-- Witness for C6: a two-byte chunk appends a release of 2 to a log that
already holds one release of 5. -/
theorem read_release_capacity_before_return_witness :
    ([5, 2] : List Nat) = [5] ++ [([1, 2] : Bytes).length] :=
  read_release_capacity_before_return [.data [1, 2] false] [5] [5, 2]
    [1, 2] [] (by decide) (by decide)

end Hbone

namespace Hbone

/-- Helper for C8: if a `poll_bytes` pull resolves to a ready empty
chunk, the script's first resolving event truly ended the stream. -/
theorem poll_bytes_go_empty_end (events : List RecvEvent) :
    ∀ (log log1 : List Nat) (rest : List RecvEvent),
      poll_bytes_go events log = (.ready (.ok []), rest, log1) →
      streamTrulyEnded events = true := by
  induction events with
  | nil => intro log log1 rest h; simp [poll_bytes_go] at h
  | cons ev evs ih =>
    intro log log1 rest h
    cases ev with
    | pending => simp [poll_bytes_go] at h
    | eos => simp [streamTrulyEnded]
    | data b es =>
      simp only [poll_bytes_go] at h
      split at h
      · rename_i hc
        obtain ⟨hb, hes⟩ := hc
        subst hb; subst hes
        simp only [streamTrulyEnded]
        exact ih log log1 rest h
      · rename_i hc
        simp at h
        obtain ⟨hb, _, _⟩ := h
        subst hb
        cases es with
        | true => simp [streamTrulyEnded]
        | false => exact absurd ⟨rfl, rfl⟩ hc
    | err e =>
      cases e with
      | reset r =>
        cases r with
        | NO_ERROR => simp [streamTrulyEnded, H2Error.reason]
        | CANCEL => simp [streamTrulyEnded, H2Error.reason]
        | STREAM_CLOSED => simp [poll_bytes_go, H2Error.reason] at h
        | otherCode c =>
          simp [poll_bytes_go, H2Error.reason, h2_to_io_error] at h
      | io p => simp [poll_bytes_go, H2Error.reason, h2_to_io_error] at h
      | other t => simp [poll_bytes_go, H2Error.reason, h2_to_io_error] at h

/-- C8: `poll_bytes` never returns a ready empty chunk unless the stream
has truly ended (no more frames, an empty final frame, or a clean
NO_ERROR/CANCEL reset); and an empty non-final chunk is retried within
the same call — the pull over it equals the pull over the remaining
script — rather than being handed to the caller. -/
theorem poll_bytes_empty_only_at_end (events : List RecvEvent) (log : List Nat) :
    (∀ (rest : List RecvEvent) (log1 : List Nat),
        poll_bytes_go events log = (.ready (.ok []), rest, log1) →
        streamTrulyEnded events = true) ∧
    poll_bytes_go (RecvEvent.data [] false :: events) log =
      poll_bytes_go events log :=
  ⟨fun rest log1 h => poll_bytes_go_empty_end events log log1 rest h,
   by simp [poll_bytes_go]⟩

/-- Witness for C8: a script that ends immediately. -/
theorem poll_bytes_empty_only_at_end_witness :
    streamTrulyEnded [RecvEvent.eos] = true ∧
    poll_bytes_go [RecvEvent.data [] false, RecvEvent.eos] [] =
      poll_bytes_go [RecvEvent.eos] [] :=
  ⟨(poll_bytes_empty_only_at_end [RecvEvent.eos] []).1 [] [] (by decide),
   (poll_bytes_empty_only_at_end [RecvEvent.eos] []).2⟩

end Hbone

namespace Hbone

/-- C9: the watchdog sends the one-shot failure signal at most once in
every execution; if the teardown flag is set when a probe round starts
(all earlier rounds having continued with pongs), it exits silently with
no signal ever sent; and when a round signals (timeout, or ping error
with the flag still clear), the run ends at that round — the rounds after
it contribute no further pings — with exactly one signal sent. -/
theorem watchdog_signal_at_most_once :
    (∀ script : List PingRound, (do_ping_pong script).signals ≤ 1) ∧
    (∀ (pre : List PingRound) (r : PingRound) (post : List PingRound),
        (∀ x ∈ pre, x.droppedAtStart = false ∧ x.outcome = PingOutcome.pong) →
        r.droppedAtStart = true →
        do_ping_pong (pre ++ r :: post) = ⟨0, pre.length, .silent⟩) ∧
    (∀ (pre : List PingRound) (r : PingRound) (post : List PingRound),
        (∀ x ∈ pre, x.droppedAtStart = false ∧ x.outcome = PingOutcome.pong) →
        r.droppedAtStart = false →
        (r.outcome = PingOutcome.timeout ∨
          (r.outcome = PingOutcome.err ∧ r.droppedAtErr = false)) →
        do_ping_pong (pre ++ r :: post) = ⟨1, pre.length + 1, .signaled⟩) := by
  refine ⟨?_, ?_, ?_⟩
  · intro script
    induction script with
    | nil => simp [do_ping_pong]
    | cons r rest ih =>
      cases hd : r.droppedAtStart with
      | true => simp [do_ping_pong, hd]
      | false =>
        cases ho : r.outcome with
        | timeout => simp [do_ping_pong, hd, ho]
        | pong =>
          simp only [do_ping_pong, hd, ho]
          simpa using ih
        | err =>
          cases he : r.droppedAtErr with
          | true => simp [do_ping_pong, hd, ho, he]
          | false => simp [do_ping_pong, hd, ho, he]
  · intro pre r post
    induction pre with
    | nil => intro _ hr; simp [do_ping_pong, hr]
    | cons x xs ih =>
      intro hpre hr
      obtain ⟨hx1, hx2⟩ := hpre x (List.mem_cons_self x xs)
      have hxs : ∀ y ∈ xs, y.droppedAtStart = false ∧ y.outcome = .pong :=
        fun y hy => hpre y (List.mem_cons_of_mem x hy)
      simp [do_ping_pong, hx1, hx2, ih hxs hr]
  · intro pre r post
    induction pre with
    | nil =>
      intro _ hr hout
      rcases hout with ht | ⟨he, hde⟩
      · simp [do_ping_pong, hr, ht]
      · simp [do_ping_pong, hr, he, hde]
    | cons x xs ih =>
      intro hpre hr hout
      obtain ⟨hx1, hx2⟩ := hpre x (List.mem_cons_self x xs)
      have hxs : ∀ y ∈ xs, y.droppedAtStart = false ∧ y.outcome = .pong :=
        fun y hy => hpre y (List.mem_cons_of_mem x hy)
      simp [do_ping_pong, hx1, hx2, ih hxs hr hout]

/-- Witness for C9: the flag is set before the first probe round, so the
watchdog exits with no signal and no ping. -/
theorem watchdog_signal_at_most_once_witness :
    do_ping_pong [⟨true, PingOutcome.pong, false⟩] =
      ⟨0, 0, WatchdogExit.silent⟩ :=
  watchdog_signal_at_most_once.2.1 [] ⟨true, PingOutcome.pong, false⟩ []
    (by simp) rfl

end Hbone
